import Mathlib

/-!
Verification of the kiyoi session core (`src/nextjs.ts`).

The session module is embedded shallowly:

* JS objects (session values, cookie stores, the two listener registries)
  are association lists with JavaScript object / `Map` update semantics:
  setting an existing key overwrites it in place, setting a new key appends,
  lookup returns the first (unique) occurrence.
* The cryptographic collaborator (`Iron.seal` / `Iron.unseal`) is an abstract
  pair of functions; `unseal` is fallible (`Except`), matching "throws on any
  corruption or secret mismatch".
* `Date.now()` is an explicit integer parameter threaded to every operation
  that reads the clock.
* `nanoid()` is an explicit string parameter standing for the freshly
  generated random id.
* The session secret is a `String`; the empty string models the JS falsy
  check `!sessionSecret`, which treats `undefined` and `""` identically.
* Thrown JS exceptions are `Except.error`; validator functions may throw,
  so a registered validator is `Obj → Except Unit Bool`.
-/

set_option autoImplicit false

namespace Kiyoi

/-- Runtime values stored in a session object. -/
inductive Val where
  | str (s : String)
  | num (n : Int)
  | boolean (b : Bool)
  deriving DecidableEq, Repr

/-- A JavaScript object: keys to values, first occurrence wins on lookup. -/
abbrev Obj := List (String × Val)

/-- Lookup in an association list (JS property read / `Map.get`). -/
def alGet {α : Type} : List (String × α) → String → Option α
  | [], _ => none
  | (k', v) :: rest, k => if k' = k then some v else alGet rest k

/-- Update in an association list (JS property write / `Map.set`):
overwrite the existing entry in place, or append a new one. -/
def alSet {α : Type} : List (String × α) → String → α → List (String × α)
  | [], k, v => [(k, v)]
  | (k', v') :: rest, k, v =>
    if k' = k then (k, v) :: rest else (k', v') :: alSet rest k v

/-- Removal from an association list (JS `Map.delete` / cookie deletion). -/
def alErase {α : Type} : List (String × α) → String → List (String × α)
  | [], _ => []
  | (k', v) :: rest, k =>
    if k' = k then alErase rest k else (k', v) :: alErase rest k

@[simp] theorem alGet_nil {α : Type} (k : String) : alGet ([] : List (String × α)) k = none := rfl

theorem alGet_alSet_self {α : Type} (l : List (String × α)) (k : String) (v : α) :
    alGet (alSet l k v) k = some v := by
  induction l with
  | nil => simp [alSet, alGet]
  | cons p rest ih =>
    obtain ⟨k', v'⟩ := p
    by_cases h : k' = k
    · simp [alSet, h, alGet]
    · simp [alSet, h, alGet, ih]

theorem alGet_alSet_ne {α : Type} (l : List (String × α)) (k k' : String) (v : α)
    (h : k' ≠ k) : alGet (alSet l k v) k' = alGet l k' := by
  have h' : ¬ k = k' := fun e => h e.symm
  induction l with
  | nil => simp [alSet, alGet, h']
  | cons p rest ih =>
    obtain ⟨k'', v''⟩ := p
    by_cases hk : k'' = k
    · subst hk
      simp [alSet, alGet, h']
    · simp [alSet, hk, alGet, ih]

theorem alGet_alErase_self {α : Type} (l : List (String × α)) (k : String) :
    alGet (alErase l k) k = none := by
  induction l with
  | nil => simp [alErase]
  | cons p rest ih =>
    obtain ⟨k', v⟩ := p
    by_cases h : k' = k
    · simp [alErase, h, ih]
    · simp [alErase, h, alGet, ih]

theorem alGet_alErase_ne {α : Type} (l : List (String × α)) (k k' : String)
    (h : k' ≠ k) : alGet (alErase l k) k' = alGet l k' := by
  have h' : ¬ k = k' := fun e => h e.symm
  induction l with
  | nil => simp [alErase]
  | cons p rest ih =>
    obtain ⟨k'', v⟩ := p
    by_cases hk : k'' = k
    · subst hk
      simp [alErase, alGet, h', ih]
    · simp [alErase, hk, alGet, ih]

theorem alErase_absent {α : Type} (l : List (String × α)) (k : String)
    (h : alGet l k = none) : alErase l k = l := by
  induction l with
  | nil => rfl
  | cons p rest ih =>
    obtain ⟨k', v⟩ := p
    by_cases hk : k' = k
    · simp [alGet, hk] at h
    · simp [alGet, hk] at h
      simp [alErase, hk, ih h]

theorem alErase_alSet_cancel {α : Type} (l : List (String × α)) (k : String) (v : α)
    (h : alGet l k = none) : alErase (alSet l k v) k = l := by
  induction l with
  | nil => simp [alSet, alErase]
  | cons p rest ih =>
    obtain ⟨k', v'⟩ := p
    by_cases hk : k' = k
    · simp [alGet, hk] at h
    · simp [alGet, hk] at h
      simp [alSet, hk, alErase, ih h]

/-- JS object spread `{ ...base, ...d }`: every entry of `d` is written over
`base` in order. Models the literal `{ id: ..., ...sessionData }`. -/
def objMerge (base : Obj) (d : Obj) : Obj :=
  d.foldl (fun acc p => alSet acc p.1 p.2) base

theorem alGet_objMerge_not_mem (base d : Obj) (k : String)
    (h : k ∉ d.map Prod.fst) : alGet (objMerge base d) k = alGet base k := by
  induction d generalizing base with
  | nil => rfl
  | cons p rest ih =>
    simp only [List.map_cons, List.mem_cons, not_or] at h
    have e : objMerge base (p :: rest) = objMerge (alSet base p.1 p.2) rest := rfl
    rw [e]
    exact (ih _ h.2).trans (alGet_alSet_ne base p.1 k p.2 h.1)

/-- The cookie name: `let sessionName = 'session'` (never reassigned). -/
def sessionName : String := "session"

/-- A session plugin: up to three optional hooks (`src/nextjs.ts`,
`SessionPlugin`). Hooks that read the clock are instantiated with an
explicit `now` at construction (see `expires` / `idle`). -/
structure SessionPlugin where
  create : Option (Obj → Obj) := none
  validate : Option (Obj → Bool) := none
  touch : Option (Obj → Obj) := none

/-- The `SessionError` enum. -/
inductive SessionError where
  | NoCookie
  | InvalidCookie
  | ValidationFailed
  deriving DecidableEq, Repr

/-- Modelled from the spec: the `Result` type (`src/result.js` is not present
under `src/`); per the spec it is a two-variant outcome wrapper with
`ok(value)` / `error(kind)` constructors, used as `get`'s return type. -/
inductive SessionResult where
  | ok (s : Obj)
  | error (e : SessionError)
  deriving DecidableEq, Repr

/-- A registered validator function. JS functions may throw, so the result
is `Except Unit Bool` (`Except.error` = the validator threw). -/
abbrev Validator := Obj → Except Unit Bool

/-- A registered toucher function, separating the two effects a JS function
call `toucher(session)` can have: `mutate` is the in-place update performed
on the argument object, `ret` is the value the function returns. -/
structure Toucher where
  mutate : Obj → Obj
  ret : Obj → Obj

/-- A toucher built from a plugin `touch` hook written in the idiomatic
style of the bundled plugins: mutate the session in place and return it. -/
def pluginToucher (f : Obj → Obj) : Toucher where
  mutate := f
  ret := f

/-- The process-wide listener registries `Session._validators` /
`Session._touchListeners` (insertion-ordered maps). -/
structure RegState where
  validators : List (String × Validator)
  touchers : List (String × Toucher)

/-- A stored cookie: its value plus the attributes it was set with.
`maxAge = none` models a non-numeric (`NaN`/`undefined`) JS lifetime. -/
structure CookieEntry where
  value : String
  maxAge : Option Int := none
  httpOnly : Bool := false
  sameSite : String := ""
  path : String := ""
  deriving DecidableEq, Repr

/-- A cookie store: named cookies with `get`/`set`/`delete` access. -/
abbrev CookieStore := List (String × CookieEntry)

/-- JS `a - b` where `a` is a property read: a number unless the property is
missing or non-numeric (then `NaN`, modelled as `none`). Used for
`session.expires - Date.now()` in `Session.save`. -/
def jsSubNum (v : Option Val) (n : Int) : Option Int :=
  match v with
  | some (Val.num e) => some (e - n)
  | _ => none

/-- JS `a > b` where `a` may be missing/non-numeric: comparisons against
`NaN`/`undefined` are `false`. Used by the plugin `validate` hooks. -/
def jsGtNum (v : Option Val) (n : Int) : Bool :=
  match v with
  | some (Val.num e) => n < e
  | _ => false

/-- JS `a + k` on a property read: `NaN` (`none`) unless `a` is a number. -/
def jsAddNum (v : Option Val) (k : Int) : Option Val :=
  match v with
  | some (Val.num e) => some (Val.num (e + k))
  | _ => none

/-- `Session.create(sessionData, extensions)`: build
`{ id: Session.id(), ...sessionData }` (note the spread comes *after* the
id, so `sessionData` entries overwrite it), then fold each plugin's
`create` hook in list order. `genId` is the `nanoid()` value. -/
def Session.create (genId : String) (sessionData : Obj)
    (extensions : List SessionPlugin) : Obj :=
  let session := objMerge [("id", Val.str genId)] sessionData
  extensions.foldl
    (fun s ext =>
      match ext.create with
      | some f => f s
      | none => s)
    session

/-- `Session.validate(session)`: run the registered validators in order,
returning `false` at the first validator returning `false`, `true` when all
pass (or none are registered). A validator that throws propagates its
exception (`Except.error`). -/
def Session.validate (vs : List Validator) (s : Obj) : Except Unit Bool :=
  match vs with
  | [] => Except.ok true
  | v :: rest =>
    match v s with
    | Except.error e => Except.error e
    | Except.ok false => Except.ok false
    | Except.ok true => Session.validate rest s

/-- `Session.touch(session)`: run every registered toucher with the session
as argument, as a bare statement — each call's in-place mutation lands on
the session object, its *return value* is discarded — then return the
(possibly mutated) session object. -/
def Session.touch (ts : List Toucher) (s : Obj) : Obj :=
  match ts with
  | [] => s
  | t :: rest => Session.touch rest (t.mutate s)

/-- `Session.get(cookieStore)`: throw when the secret is unset (falsy);
return `NoCookie` when the named cookie is absent; inside the `try` block,
unseal the cookie value and run `Session.validate` on the result — any
exception thrown by either lands in the `catch`, producing `InvalidCookie`;
a clean `false` verdict produces `ValidationFailed`, otherwise success.
`unseal` stands for `Iron.unseal` with the configured crypto and secret. -/
def Session.get (secret : String) (store : CookieStore)
    (unsealFn : String → Except Unit Obj) (vs : List Validator) :
    Except String SessionResult :=
  if secret = "" then Except.error "kiyoi: session secret is not set"
  else
    match alGet store sessionName with
    | none => Except.ok (SessionResult.error SessionError.NoCookie)
    | some cookie =>
      match unsealFn cookie.value with
      | Except.error _ => Except.ok (SessionResult.error SessionError.InvalidCookie)
      | Except.ok session =>
        match Session.validate vs session with
        | Except.error _ => Except.ok (SessionResult.error SessionError.InvalidCookie)
        | Except.ok false => Except.ok (SessionResult.error SessionError.ValidationFailed)
        | Except.ok true => Except.ok (SessionResult.ok session)

/-- `Session.save(session, cookieStore)`: throw when the secret is unset;
otherwise seal the session and set the named cookie with
`maxAge: session.expires - Date.now()`, `httpOnly: true`,
`sameSite: 'lax'`, `path: '/'`. `seal` stands for `Iron.seal`, `now` for
`Date.now()`. -/
def Session.save (secret : String) (sealFn : Obj → String) (now : Int)
    (session : Obj) (store : CookieStore) : Except String CookieStore :=
  if secret = "" then Except.error "kiyoi: session secret is not set"
  else Except.ok (alSet store sessionName
    { value := sealFn session
      maxAge := jsSubNum (alGet session "expires") now
      httpOnly := true
      sameSite := "lax"
      path := "/" })

/-- `Session.destroy(cookieStore)`: delete the named cookie. -/
def Session.destroy (store : CookieStore) : CookieStore :=
  alErase store sessionName

/-- `Session.onValidate(fn)`: store `fn` under a fresh `nanoid()` key and
return `'v,' + id`. `freshId` is the `nanoid()` value. -/
def Session.onValidate (freshId : String) (fn : Validator) (st : RegState) :
    String × RegState :=
  ("v," ++ freshId, { st with validators := alSet st.validators freshId fn })

/-- `Session.onTouch(fn)`: store `fn` under a fresh `nanoid()` key and
return `'t,' + id`. -/
def Session.onTouch (freshId : String) (fn : Toucher) (st : RegState) :
    String × RegState :=
  ("t," ++ freshId, { st with touchers := alSet st.touchers freshId fn })

/-- `Session.removeListener(id)`: route on the id's two-character tag and
delete `id.slice(2)` from the matching registry; anything else is ignored. -/
def Session.removeListener (id : String) (st : RegState) : RegState :=
  if id.startsWith "v," then
    { st with validators := alErase st.validators (id.drop 2) }
  else if id.startsWith "t," then
    { st with touchers := alErase st.touchers (id.drop 2) }
  else st

/-- The `expires(seconds)` plugin. `now` is the `Date.now()` read the hook
performs when invoked. -/
def expires (seconds : Int) (now : Int) : SessionPlugin where
  create := some (fun session => alSet session "expires" (Val.num (now + seconds * 1000)))
  validate := some (fun session => jsGtNum (alGet session "expires") now)

/-- The `idle(seconds)` plugin. `now` is the `Date.now()` read the hooks
perform when invoked. -/
def idle (seconds : Int) (now : Int) : SessionPlugin where
  create := some (fun session => alSet session "lastActive" (Val.num now))
  validate := some (fun session =>
    jsGtNum (jsAddNum (alGet session "lastActive") (seconds * 1000)) now)
  touch := some (fun session => alSet session "lastActive" (Val.num now))

/-- Modelled from the spec: the touch semantics claimed in §4.1 — "each
allowed to mutate/replace the session; returns the final session", read as
chaining each toucher's returned session into the next and returning the
last one. Compare with `Session.touch`, which discards return values. -/
def touchChained (ts : List Toucher) (s : Obj) : Obj :=
  match ts with
  | [] => s
  | t :: rest => touchChained rest (t.ret (t.mutate s))

theorem get_vcomma_0 (cs : List Char) : String.get ⟨'v' :: ',' :: cs⟩ ⟨0⟩ = 'v' := rfl

theorem get_vcomma_1 (cs : List Char) : String.get ⟨'v' :: ',' :: cs⟩ ⟨1⟩ = ',' := rfl

theorem get_vlit_0 : String.get "v," ⟨0⟩ = 'v' := rfl

theorem get_vlit_1 : String.get "v," ⟨1⟩ = ',' := rfl

theorem substrEq_loop_vcomma (cs : List Char) :
    String.substrEq.loop ⟨'v' :: ',' :: cs⟩ "v," ⟨0⟩ ⟨0⟩ ⟨2⟩ = true := by
  rw [String.substrEq.loop, dif_pos (by decide)]
  simp only [get_vcomma_0, get_vlit_0, show ((⟨0⟩ : String.Pos) + 'v') = ⟨1⟩ from rfl]
  rw [String.substrEq.loop, dif_pos (by decide)]
  simp only [get_vcomma_1, get_vlit_1, show ((⟨1⟩ : String.Pos) + ',') = ⟨2⟩ from rfl]
  rw [String.substrEq.loop, dif_neg (by decide)]
  decide

theorem substrEq_vcomma (cs : List Char) :
    String.substrEq ⟨'v' :: ',' :: cs⟩ ⟨0⟩ "v," ⟨0⟩ 2 = true := by
  unfold String.substrEq
  simp only [Bool.and_eq_true, decide_eq_true_eq]
  refine ⟨⟨?_, by decide⟩, ?_⟩
  · show 0 + 2 ≤ (String.endPos ⟨'v' :: ',' :: cs⟩).byteIdx
    have h1 : ','.utf8Size = 1 := rfl
    have h2 : 'v'.utf8Size = 1 := rfl
    simp [String.endPos_eq, h1, h2]
  · show String.substrEq.loop _ _ _ _ ⟨0 + 2⟩ = true
    exact substrEq_loop_vcomma cs

/-- `('v,' + id).startsWith('v,')` is true: the id returned by `onValidate`
always routes to the validator branch of `removeListener`. -/
theorem startsWith_vcomma (s : String) : ("v," ++ s).startsWith "v," = true := by
  have h2 := (String.validFor_toSubstring ("v," ++ s)).take 2
  have hd : ("v," ++ s).data = 'v' :: ',' :: s.data := rfl
  rw [hd] at h2
  simp only [List.take, List.drop, List.append_nil] at h2
  show (("v," ++ s).toSubstring.take 2 == ("v," : String).toSubstring) = true
  show Substring.beq (("v," ++ s).toSubstring.take 2) ("v," : String).toSubstring = true
  rw [Substring.beq]
  rw [h2.str, h2.startPos, h2.bsize]
  have e1 : (String.utf8Len ['v', ','] == "v,".toSubstring.bsize) = true := by decide
  have e2 : ({ data := [] ++ ['v', ','] ++ s.data } : String) = ⟨'v' :: ',' :: s.data⟩ := rfl
  have e3 : ({ byteIdx := String.utf8Len [] } : String.Pos) = ⟨0⟩ := rfl
  have e4 : "v,".toSubstring.str = "v," := rfl
  have e5 : "v,".toSubstring.startPos = ⟨0⟩ := rfl
  have e6 : String.utf8Len ['v', ','] = 2 := rfl
  rw [e1, e2, e3, e4, e5, e6, Bool.true_and]
  exact substrEq_vcomma s.data

/-- `('v,' + id).slice(2)` recovers the raw id. -/
theorem drop_two_vcomma (s : String) : ("v," ++ s).drop 2 = s := by
  rw [String.drop_eq]
  cases s with
  | mk data =>
    show String.mk ((("v," : String).data ++ data).drop 2) = ⟨data⟩
    rfl

theorem validate_cons_true (v : Validator) (rest : List Validator) (s : Obj)
    (h : v s = Except.ok true) :
    Session.validate (v :: rest) s = Session.validate rest s := by
  rw [Session.validate, h]

theorem validate_cons_false (v : Validator) (rest : List Validator) (s : Obj)
    (h : v s = Except.ok false) :
    Session.validate (v :: rest) s = Except.ok false := by
  rw [Session.validate, h]

theorem validate_cons_throw (v : Validator) (rest : List Validator) (s : Obj)
    (e : Unit) (h : v s = Except.error e) :
    Session.validate (v :: rest) s = Except.error e := by
  rw [Session.validate, h]

theorem validate_all_true (vs : List Validator) (s : Obj)
    (h : ∀ v ∈ vs, v s = Except.ok true) :
    Session.validate vs s = Except.ok true := by
  induction vs with
  | nil => rfl
  | cons v rest ih =>
    rw [validate_cons_true v rest s (h v (by simp))]
    exact ih (fun u hu => h u (by simp [hu]))

theorem validate_append_false (pre post : List Validator) (v : Validator) (s : Obj)
    (hpre : ∀ u ∈ pre, u s = Except.ok true) (hv : v s = Except.ok false) :
    Session.validate (pre ++ v :: post) s = Except.ok false := by
  induction pre with
  | nil => rw [List.nil_append]; exact validate_cons_false v post s hv
  | cons u rest ih =>
    rw [List.cons_append, validate_cons_true u _ s (hpre u (by simp))]
    exact ih (fun u' hu' => hpre u' (by simp [hu']))

theorem validate_append_throw (pre post : List Validator) (v : Validator) (s : Obj)
    (e : Unit) (hpre : ∀ u ∈ pre, u s = Except.ok true) (hv : v s = Except.error e) :
    Session.validate (pre ++ v :: post) s = Except.error e := by
  induction pre with
  | nil => rw [List.nil_append]; exact validate_cons_throw v post s e hv
  | cons u rest ih =>
    rw [List.cons_append, validate_cons_true u _ s (hpre u (by simp))]
    exact ih (fun u' hu' => hpre u' (by simp [hu']))

theorem get_no_cookie (secret : String) (store : CookieStore)
    (unsealFn : String → Except Unit Obj) (vs : List Validator)
    (hs : secret ≠ "") (hc : alGet store sessionName = none) :
    Session.get secret store unsealFn vs
      = Except.ok (SessionResult.error SessionError.NoCookie) := by
  unfold Session.get
  rw [if_neg hs, hc]

theorem get_cookie_some (secret : String) (store : CookieStore)
    (unsealFn : String → Except Unit Obj) (vs : List Validator) (cookie : CookieEntry)
    (hs : secret ≠ "") (hc : alGet store sessionName = some cookie) :
    Session.get secret store unsealFn vs =
      match unsealFn cookie.value with
      | Except.error _ => Except.ok (SessionResult.error SessionError.InvalidCookie)
      | Except.ok session =>
        match Session.validate vs session with
        | Except.error _ => Except.ok (SessionResult.error SessionError.InvalidCookie)
        | Except.ok false => Except.ok (SessionResult.error SessionError.ValidationFailed)
        | Except.ok true => Except.ok (SessionResult.ok session) := by
  unfold Session.get
  rw [if_neg hs, hc]

theorem get_unseal_throw (secret : String) (store : CookieStore)
    (unsealFn : String → Except Unit Obj) (vs : List Validator) (cookie : CookieEntry)
    (e : Unit) (hs : secret ≠ "") (hc : alGet store sessionName = some cookie)
    (hu : unsealFn cookie.value = Except.error e) :
    Session.get secret store unsealFn vs
      = Except.ok (SessionResult.error SessionError.InvalidCookie) := by
  rw [get_cookie_some secret store unsealFn vs cookie hs hc, hu]

theorem get_unseal_ok (secret : String) (store : CookieStore)
    (unsealFn : String → Except Unit Obj) (vs : List Validator) (cookie : CookieEntry)
    (session : Obj) (hs : secret ≠ "") (hc : alGet store sessionName = some cookie)
    (hu : unsealFn cookie.value = Except.ok session) :
    Session.get secret store unsealFn vs =
      match Session.validate vs session with
      | Except.error _ => Except.ok (SessionResult.error SessionError.InvalidCookie)
      | Except.ok false => Except.ok (SessionResult.error SessionError.ValidationFailed)
      | Except.ok true => Except.ok (SessionResult.ok session) := by
  rw [get_cookie_some secret store unsealFn vs cookie hs hc, hu]

/-- C1: for every cookie store, `Session.get` with the secret set returns
exactly one of NoCookie, InvalidCookie, ValidationFailed, or success, and
never throws; it throws precisely when the session secret is unset
(falsy). -/
theorem get_total_outcomes (secret : String) (store : CookieStore)
    (unsealFn : String → Except Unit Obj) (vs : List Validator) :
    ((∃ msg, Session.get secret store unsealFn vs = Except.error msg) ↔ secret = "")
    ∧ (secret ≠ "" →
        Session.get secret store unsealFn vs
            = Except.ok (SessionResult.error SessionError.NoCookie)
        ∨ Session.get secret store unsealFn vs
            = Except.ok (SessionResult.error SessionError.InvalidCookie)
        ∨ Session.get secret store unsealFn vs
            = Except.ok (SessionResult.error SessionError.ValidationFailed)
        ∨ ∃ s, Session.get secret store unsealFn vs = Except.ok (SessionResult.ok s)) := by
  by_cases hs : secret = ""
  · refine ⟨⟨fun _ => hs, fun _ => ⟨"kiyoi: session secret is not set", ?_⟩⟩,
      fun h => absurd hs h⟩
    unfold Session.get
    rw [if_pos hs]
  · have hdisj : Session.get secret store unsealFn vs
            = Except.ok (SessionResult.error SessionError.NoCookie)
        ∨ Session.get secret store unsealFn vs
            = Except.ok (SessionResult.error SessionError.InvalidCookie)
        ∨ Session.get secret store unsealFn vs
            = Except.ok (SessionResult.error SessionError.ValidationFailed)
        ∨ ∃ s, Session.get secret store unsealFn vs = Except.ok (SessionResult.ok s) := by
      cases halG : alGet store sessionName with
      | none => exact Or.inl (get_no_cookie secret store unsealFn vs hs halG)
      | some cookie =>
        cases hu : unsealFn cookie.value with
        | error e =>
          exact Or.inr (Or.inl (get_unseal_throw secret store unsealFn vs cookie e hs halG hu))
        | ok session =>
          have hbr := get_unseal_ok secret store unsealFn vs cookie session hs halG hu
          cases hv : Session.validate vs session with
          | error e => rw [hv] at hbr; exact Or.inr (Or.inl hbr)
          | ok b =>
            cases b with
            | false => rw [hv] at hbr; exact Or.inr (Or.inr (Or.inl hbr))
            | true => rw [hv] at hbr; exact Or.inr (Or.inr (Or.inr ⟨session, hbr⟩))
    refine ⟨⟨?_, fun h => absurd h hs⟩, fun _ => hdisj⟩
    rintro ⟨msg, hmsg⟩
    rcases hdisj with h | h | h | ⟨s', h⟩ <;> rw [h] at hmsg <;> exact Except.noConfusion hmsg

/-- C5: `Session.validate` returns true on an empty registry, true when
every registered validator accepts, and false as soon as one validator
returns false — regardless of what comes after it in the registry (the
later validators, `post`, are arbitrary, including throwing ones). A
session's own plugin `validate` hooks are not consulted: a session created
with the `expires` plugin (already expired or not — `secs` may be
negative) still validates as true under an empty registry. -/
theorem validate_registry_semantics (vs : List Validator) (s : Obj)
    (g : String) (d : Obj) (secs now : Int) :
    Session.validate [] s = Except.ok true
    ∧ ((∀ v ∈ vs, v s = Except.ok true) → Session.validate vs s = Except.ok true)
    ∧ (∀ (pre post : List Validator) (v : Validator),
        (∀ u ∈ pre, u s = Except.ok true) → v s = Except.ok false →
        Session.validate (pre ++ v :: post) s = Except.ok false)
    ∧ Session.validate [] (Session.create g d [expires secs now]) = Except.ok true :=
  ⟨rfl, validate_all_true vs s,
    fun pre post v hpre hv => validate_append_false pre post v s hpre hv, rfl⟩

/-- C10: when the cookie unseals successfully but a registered validator
throws during `Session.validate`, `Session.get` returns InvalidCookie (not
ValidationFailed, and no exception escapes), because validation runs inside
the same try/catch that guards unsealing. -/
theorem validator_throw_yields_invalid_cookie (secret : String) (store : CookieStore)
    (unsealFn : String → Except Unit Obj) (pre post : List Validator) (v : Validator)
    (cookie : CookieEntry) (s : Obj)
    (hsecret : secret ≠ "")
    (hcookie : alGet store sessionName = some cookie)
    (hunseal : unsealFn cookie.value = Except.ok s)
    (hpre : ∀ u ∈ pre, u s = Except.ok true)
    (hv : v s = Except.error ()) :
    Session.get secret store unsealFn (pre ++ v :: post)
      = Except.ok (SessionResult.error SessionError.InvalidCookie) := by
  have hval := validate_append_throw pre post v s () hpre hv
  rw [get_unseal_ok secret store unsealFn (pre ++ v :: post) cookie s hsecret hcookie hunseal,
    hval]

/-- C10 witness: a concrete store, unsealer and throwing validator. -/
theorem validator_throw_yields_invalid_cookie_witness :
    Session.get "secret" [(sessionName, { value := "c" })]
        (fun _ => Except.ok []) ([] ++ (fun _ => Except.error ()) :: [])
      = Except.ok (SessionResult.error SessionError.InvalidCookie) :=
  validator_throw_yields_invalid_cookie "secret" [(sessionName, { value := "c" })]
    (fun _ => Except.ok []) [] [] (fun _ => Except.error ()) { value := "c" } []
    (by decide) rfl rfl (by simp) rfl

theorem save_ok (secret : String) (sealFn : Obj → String) (now : Int)
    (session : Obj) (store : CookieStore) (hs : secret ≠ "") :
    Session.save secret sealFn now session store = Except.ok (alSet store sessionName
      { value := sealFn session
        maxAge := jsSubNum (alGet session "expires") now
        httpOnly := true
        sameSite := "lax"
        path := "/" }) := by
  unfold Session.save
  rw [if_neg hs]

/-- C7: `Session.save` with the secret set writes the sealed session to the
named cookie with lifetime `session.expires - now`, the HTTP-only flag,
same-site lax and path `/`, leaving every other cookie unchanged; with the
secret unset it throws. -/
theorem save_writes_sealed_cookie_attrs (secret : String) (sealFn : Obj → String)
    (now : Int) (session : Obj) (store : CookieStore) (e : Int)
    (he : alGet session "expires" = some (Val.num e)) :
    (secret = "" → Session.save secret sealFn now session store
        = Except.error "kiyoi: session secret is not set")
    ∧ (secret ≠ "" → ∃ store',
        Session.save secret sealFn now session store = Except.ok store'
        ∧ alGet store' sessionName = some
            { value := sealFn session, maxAge := some (e - now),
              httpOnly := true, sameSite := "lax", path := "/" }
        ∧ ∀ n, n ≠ sessionName → alGet store' n = alGet store n) := by
  constructor
  · intro h
    unfold Session.save
    rw [if_pos h]
  · intro hs
    refine ⟨_, save_ok secret sealFn now session store hs, ?_, ?_⟩
    · rw [alGet_alSet_self, he]
      rfl
    · intro n hn
      exact alGet_alSet_ne store sessionName n _ hn

/-- C7 witness: a concrete session with `expires = 10`, saved at time 3. -/
theorem save_writes_sealed_cookie_attrs_witness :
    ∃ store', Session.save "s" (fun _ => "tok") 3 [("expires", Val.num 10)] []
        = Except.ok store'
      ∧ alGet store' sessionName = some
          { value := "tok", maxAge := some 7, httpOnly := true,
            sameSite := "lax", path := "/" }
      ∧ ∀ n, n ≠ sessionName → alGet store' n = alGet ([] : CookieStore) n :=
  (save_writes_sealed_cookie_attrs "s" (fun _ => "tok") 3 [("expires", Val.num 10)]
    [] 10 rfl).2 (by decide)

/-- C8: `Session.destroy` deletes the named session cookie and nothing
else, is idempotent (a no-op when the cookie is absent), and a
`Session.get` on the destroyed store returns NoCookie. -/
theorem destroy_spec (store : CookieStore) (secret : String)
    (unsealFn : String → Except Unit Obj) (vs : List Validator) (hs : secret ≠ "") :
    alGet (Session.destroy store) sessionName = none
    ∧ Session.destroy (Session.destroy store) = Session.destroy store
    ∧ (∀ n, n ≠ sessionName → alGet (Session.destroy store) n = alGet store n)
    ∧ (alGet store sessionName = none → Session.destroy store = store)
    ∧ Session.get secret (Session.destroy store) unsealFn vs
        = Except.ok (SessionResult.error SessionError.NoCookie) := by
  refine ⟨alGet_alErase_self store sessionName, ?_, ?_, ?_, ?_⟩
  · exact alErase_absent _ _ (alGet_alErase_self store sessionName)
  · intro n hn
    exact alGet_alErase_ne store sessionName n hn
  · intro h
    exact alErase_absent store sessionName h
  · exact get_no_cookie secret _ unsealFn vs hs (alGet_alErase_self store sessionName)

/-- C8 witness: a concrete one-cookie store. -/
theorem destroy_spec_witness :
    alGet (Session.destroy [(sessionName, { value := "c" })]) sessionName = none
    ∧ Session.destroy (Session.destroy [(sessionName, { value := "c" })])
        = Session.destroy [(sessionName, { value := "c" })]
    ∧ (∀ n, n ≠ sessionName →
        alGet (Session.destroy [(sessionName, { value := "c" })]) n
          = alGet [(sessionName, ({ value := "c" } : CookieEntry))] n)
    ∧ (alGet [(sessionName, ({ value := "c" } : CookieEntry))] sessionName = none →
        Session.destroy [(sessionName, { value := "c" })]
          = [(sessionName, { value := "c" })])
    ∧ Session.get "s" (Session.destroy [(sessionName, { value := "c" })])
        (fun _ => Except.ok []) []
        = Except.ok (SessionResult.error SessionError.NoCookie) :=
  destroy_spec [(sessionName, { value := "c" })] "s" (fun _ => Except.ok []) []
    (by decide)

/-- C2: a session created with the `expires` plugin and saved to a store is
returned unchanged (deep-equal: the very same object) by an immediately
following `Session.get` on the same store, given that unsealing inverts
sealing and no registered validator rejects (or throws on) it. -/
theorem save_get_roundtrip (secret : String) (sealFn : Obj → String)
    (unsealFn : String → Except Unit Obj) (vs : List Validator)
    (genId : String) (d : Obj) (seconds createNow saveNow : Int)
    (store store' : CookieStore) (s : Obj)
    (hcreate : s = Session.create genId d [expires seconds createNow])
    (hsecret : secret ≠ "")
    (hfuture : jsGtNum (alGet s "expires") saveNow = true)
    (hinv : unsealFn (sealFn s) = Except.ok s)
    (hval : Session.validate vs s = Except.ok true)
    (hsave : Session.save secret sealFn saveNow s store = Except.ok store') :
    Session.get secret store' unsealFn vs = Except.ok (SessionResult.ok s) := by
  have hstore : store' = alSet store sessionName
      { value := sealFn s
        maxAge := jsSubNum (alGet s "expires") saveNow
        httpOnly := true
        sameSite := "lax"
        path := "/" } := by
    rw [save_ok secret sealFn saveNow s store hsecret] at hsave
    exact (Except.ok.inj hsave).symm
  have hc : alGet store' sessionName = some
      { value := sealFn s
        maxAge := jsSubNum (alGet s "expires") saveNow
        httpOnly := true
        sameSite := "lax"
        path := "/" } := by
    rw [hstore]
    exact alGet_alSet_self store sessionName _
  rw [get_unseal_ok secret store' unsealFn vs _ s hsecret hc hinv, hval]

/-- C2 witness: a concrete round-trip (session created at time 0 with a
1-second expiry, saved and read back at time 500). -/
theorem save_get_roundtrip_witness :
    Session.get "s"
        [(sessionName,
          { value := "tok", maxAge := some 500, httpOnly := true, sameSite := "lax", path := "/" })]
        (fun _ => Except.ok [("id", Val.str "g"), ("expires", Val.num 1000)]) []
      = Except.ok (SessionResult.ok [("id", Val.str "g"), ("expires", Val.num 1000)]) :=
  save_get_roundtrip "s" (fun _ => "tok")
    (fun _ => Except.ok [("id", Val.str "g"), ("expires", Val.num 1000)]) []
    "g" [] 1 0 500 []
    [(sessionName,
      { value := "tok", maxAge := some 500, httpOnly := true, sameSite := "lax", path := "/" })]
    [("id", Val.str "g"), ("expires", Val.num 1000)]
    (by decide) (by decide) (by decide) rfl rfl rfl

theorem create_fold_preserves_id (P : List SessionPlugin) (s : Obj)
    (hP : ∀ p ∈ P, ∀ f, p.create = some f → ∀ t, alGet (f t) "id" = alGet t "id") :
    alGet (P.foldl
      (fun s ext =>
        match ext.create with
        | some f => f s
        | none => s)
      s) "id" = alGet s "id" := by
  induction P generalizing s with
  | nil => rfl
  | cons p rest ih =>
    rw [List.foldl_cons]
    have hstep : alGet
        (match p.create with
        | some f => f s
        | none => s) "id" = alGet s "id" := by
      cases hpc : p.create with
      | none => rfl
      | some f => exact hP p (by simp) f hpc s
    rw [ih _ (fun q hq => hP q (by simp [hq])), hstep]

/-- C3 counterexample: input data containing an `id` key overrides the
freshly generated id, because the object literal in `Session.create` puts
`id` *before* the spread of `sessionData`. Here create returns an empty id
instead of the generated `"fresh"`. -/
theorem create_id_overridden_by_data :
    alGet (Session.create "fresh" [("id", Val.str "")] []) "id" = some (Val.str "")
    ∧ alGet (Session.create "fresh" [("id", Val.str "")] []) "id"
        ≠ some (Val.str "fresh") := by
  decide

/-- C3 (amended): `Session.create`'s result carries exactly the freshly
generated id — hence a non-empty id, distinct across calls with distinct
generated ids — provided the input data has no `id` key and no plugin
`create` hook changes the `id` field. (Unrestricted data or plugins can
override it, see the counterexample.) -/
theorem create_id_fresh (g g2 : String) (d : Obj) (P : List SessionPlugin)
    (hd : "id" ∉ d.map Prod.fst)
    (hP : ∀ p ∈ P, ∀ f, p.create = some f → ∀ t, alGet (f t) "id" = alGet t "id")
    (hg : g ≠ g2) :
    alGet (Session.create g d P) "id" = some (Val.str g)
    ∧ (g ≠ "" → alGet (Session.create g d P) "id" ≠ some (Val.str ""))
    ∧ alGet (Session.create g d P) "id" ≠ alGet (Session.create g2 d P) "id" := by
  have key : ∀ gg : String, alGet (Session.create gg d P) "id" = some (Val.str gg) := by
    intro gg
    unfold Session.create
    rw [create_fold_preserves_id P _ hP, alGet_objMerge_not_mem _ _ _ hd]
    rfl
  refine ⟨key g, ?_, ?_⟩
  · intro hne h
    rw [key g] at h
    exact hne (Val.str.inj (Option.some.inj h))
  · intro h
    rw [key g, key g2] at h
    exact hg (Val.str.inj (Option.some.inj h))

/-- C3 witness: concrete data without an `id` key and no plugins. -/
theorem create_id_fresh_witness :
    alGet (Session.create "a" [("x", Val.num 1)] []) "id" = some (Val.str "a")
    ∧ ("a" ≠ "" → alGet (Session.create "a" [("x", Val.num 1)] []) "id"
        ≠ some (Val.str ""))
    ∧ alGet (Session.create "a" [("x", Val.num 1)] []) "id"
        ≠ alGet (Session.create "b" [("x", Val.num 1)] []) "id" :=
  create_id_fresh "a" "b" [("x", Val.num 1)] [] (by decide) (by simp) (by decide)

/-- C4 counterexample: a toucher that returns a replacement session without
mutating its argument. The claim says `Session.touch` returns the
replacement; the code discards toucher return values and returns the
original (here empty) session, as `touchChained` (the claimed semantics)
shows by differing. -/
theorem touch_discards_replacement :
    Session.touch [{ mutate := fun s => s, ret := fun _ => [("x", Val.num 1)] }] [] = []
    ∧ touchChained [{ mutate := fun s => s, ret := fun _ => [("x", Val.num 1)] }] []
        = [("x", Val.num 1)]
    ∧ Session.touch [{ mutate := fun s => s, ret := fun _ => [("x", Val.num 1)] }] []
        ≠ touchChained [{ mutate := fun s => s, ret := fun _ => [("x", Val.num 1)] }] [] := by
  refine ⟨rfl, rfl, ?_⟩
  decide

/-- C4 (amended): `Session.touch` runs every registered toucher against the
session and returns the session object after each toucher's in-place
mutation, applied in registration order; the values the touchers *return*
(including any replacement session) are discarded and cannot affect the
result — two registries whose touchers mutate identically but return
different things produce the same result. -/
theorem touch_applies_mutations_discards_returns (ts ts2 : List Toucher) (s : Obj)
    (h : ts.map Toucher.mutate = ts2.map Toucher.mutate) :
    Session.touch ts s = ts.foldl (fun acc t => t.mutate acc) s
    ∧ Session.touch ts s = Session.touch ts2 s := by
  constructor
  · clear h
    induction ts generalizing s with
    | nil => rfl
    | cons t rest ih =>
      rw [Session.touch, List.foldl_cons]
      exact ih (t.mutate s)
  · induction ts generalizing ts2 s with
    | nil =>
      cases ts2 with
      | nil => rfl
      | cons t2 rest2 => simp at h
    | cons t rest ih =>
      cases ts2 with
      | nil => simp at h
      | cons t2 rest2 =>
        simp only [List.map_cons, List.cons.injEq] at h
        rw [Session.touch, Session.touch, h.1]
        exact ih rest2 (t2.mutate s) h.2

/-- C4 witness: an identity-mutating toucher against one that additionally
returns a replacement. -/
theorem touch_applies_mutations_discards_returns_witness :
    Session.touch [{ mutate := fun s => s, ret := fun s => s }] []
      = [({ mutate := fun s => s, ret := fun s => s } : Toucher)].foldl
          (fun acc t => t.mutate acc) []
    ∧ Session.touch [{ mutate := fun s => s, ret := fun s => s }] []
      = Session.touch [{ mutate := fun s => s, ret := fun _ => [("x", Val.num 1)] }] [] :=
  touch_applies_mutations_discards_returns
    [{ mutate := fun s => s, ret := fun s => s }]
    [{ mutate := fun s => s, ret := fun _ => [("x", Val.num 1)] }] [] rfl

/-- C6: removing exactly the id returned by `onValidate` (for a fresh
registration key, as `nanoid` guarantees) restores both registries to their
prior state — so `Session.validate` behaves as before the registration —
and `removeListener` with an id matching no registration changes neither
registry. -/
theorem register_remove_roundtrip (st : RegState) (freshId : String) (fn : Validator)
    (id : String) (hfresh : alGet st.validators freshId = none) :
    Session.removeListener (Session.onValidate freshId fn st).1
        (Session.onValidate freshId fn st).2 = st
    ∧ (alGet st.validators (id.drop 2) = none →
        alGet st.touchers (id.drop 2) = none →
        Session.removeListener id st = st) := by
  constructor
  · unfold Session.onValidate Session.removeListener
    rw [if_pos (startsWith_vcomma freshId), drop_two_vcomma freshId]
    show ({ st with validators := alErase (alSet st.validators freshId fn) freshId }
      : RegState) = st
    rw [alErase_alSet_cancel st.validators freshId fn hfresh]
  · intro h1 h2
    unfold Session.removeListener
    by_cases hv : id.startsWith "v," = true
    · rw [if_pos hv, alErase_absent st.validators _ h1]
    · rw [if_neg hv]
      by_cases ht : id.startsWith "t," = true
      · rw [if_pos ht, alErase_absent st.touchers _ h2]
      · rw [if_neg ht]

/-- C6 witness: empty registries, a fresh key, and an unknown id. -/
theorem register_remove_roundtrip_witness :
    Session.removeListener
        (Session.onValidate "abc" (fun _ => Except.ok true) ⟨[], []⟩).1
        (Session.onValidate "abc" (fun _ => Except.ok true) ⟨[], []⟩).2 = ⟨[], []⟩
    ∧ (alGet (⟨[], []⟩ : RegState).validators ("zzz".drop 2) = none →
        alGet (⟨[], []⟩ : RegState).touchers ("zzz".drop 2) = none →
        Session.removeListener "zzz" ⟨[], []⟩ = ⟨[], []⟩) :=
  register_remove_roundtrip ⟨[], []⟩ "abc" (fun _ => Except.ok true) "zzz" rfl

/-- C9: with the `idle` plugin's touch hook as the registered toucher,
`Session.touch` sets `lastActive` to the current time and leaves `id`,
`expires`, and every other field unchanged. -/
theorem idle_touch_updates_lastActive (seconds now : Int) (s : Obj) (f : Obj → Obj)
    (hf : (idle seconds now).touch = some f) :
    alGet (Session.touch [pluginToucher f] s) "lastActive" = some (Val.num now)
    ∧ alGet (Session.touch [pluginToucher f] s) "id" = alGet s "id"
    ∧ alGet (Session.touch [pluginToucher f] s) "expires" = alGet s "expires"
    ∧ ∀ k, k ≠ "lastActive" → alGet (Session.touch [pluginToucher f] s) k = alGet s k := by
  have hfe : (fun session => alSet session "lastActive" (Val.num now)) = f :=
    Option.some.inj hf
  rw [← hfe]
  refine ⟨?_, ?_, ?_, ?_⟩
  · show alGet (alSet s "lastActive" (Val.num now)) "lastActive" = some (Val.num now)
    exact alGet_alSet_self s "lastActive" (Val.num now)
  · show alGet (alSet s "lastActive" (Val.num now)) "id" = alGet s "id"
    exact alGet_alSet_ne s "lastActive" "id" (Val.num now) (by decide)
  · show alGet (alSet s "lastActive" (Val.num now)) "expires" = alGet s "expires"
    exact alGet_alSet_ne s "lastActive" "expires" (Val.num now) (by decide)
  · intro k hk
    show alGet (alSet s "lastActive" (Val.num now)) k = alGet s k
    exact alGet_alSet_ne s "lastActive" k (Val.num now) hk

/-- C9 witness: the `idle 1` plugin's hook at time 5 on a concrete session. -/
theorem idle_touch_updates_lastActive_witness :
    alGet (Session.touch
        [pluginToucher (fun session => alSet session "lastActive" (Val.num 5))]
        [("id", Val.str "a")]) "lastActive" = some (Val.num 5)
    ∧ alGet (Session.touch
        [pluginToucher (fun session => alSet session "lastActive" (Val.num 5))]
        [("id", Val.str "a")]) "id" = alGet [("id", Val.str "a")] "id"
    ∧ alGet (Session.touch
        [pluginToucher (fun session => alSet session "lastActive" (Val.num 5))]
        [("id", Val.str "a")]) "expires" = alGet [("id", Val.str "a")] "expires"
    ∧ ∀ k, k ≠ "lastActive" → alGet (Session.touch
        [pluginToucher (fun session => alSet session "lastActive" (Val.num 5))]
        [("id", Val.str "a")]) k = alGet [("id", Val.str "a")] k :=
  idle_touch_updates_lastActive 1 5 [("id", Val.str "a")]
    (fun session => alSet session "lastActive" (Val.num 5)) rfl

end Kiyoi
